import Mathlib

/-!
Verification of the `Bn254Accumulator` cryptographic accumulator (src/src/lib.rs).

The accumulator stores `g1`, `g2`, a running accumulated value `acc` and the list
`members` of added scalars.  `add_member` hashes a byte string into the BN254
scalar field `Fr`, multiplies `acc` by that scalar (scalar multiplication in G1)
and appends it to `members`; `membership_witness` recomputes the product of all
recorded scalars except the first occurrence of the queried one;
`verify_membership` compares the pairings `e(witness * x, g2)` and `e(acc, g2)`.

Embedding of the external algebra (`ark_bn254`, an external collaborator that
supplies the groups, the scalar field and the pairing):

* the scalar field `Fr` is `ZMod bnR`, where `bnR` is the order of the BN254
  scalar field (the modulus of `ark_bn254::Fr`);
* `G1`, `G2` and the image of the pairing inside `GT` are cyclic groups of the
  same prime order `bnR`; an element is represented by its discrete logarithm
  with respect to the fixed generator, i.e. the exponent `a : ZMod bnR` stands
  for `g1^a` (resp. `g2^a`, `e(g1,g2)^a`).  In these coordinates the generator
  is the exponent `1`, the group identity is the exponent `0`, scalar
  multiplication by `x : Fr` is multiplication of exponents by `x`, and the
  bilinear non-degenerate pairing sends the pair of exponents `(a, b)` to the
  exponent `a * b`.  This representation is exact: both groups and the pairing
  image are cyclic of prime order `bnR` and the pairing of the generators is a
  generator of the image, so the exponent maps are isomorphisms;
* the Keccak-256 digest (`tiny_keccak`, likewise external and treated by the
  code as an opaque digest) is a parameter `keccak` of the operations that use
  it, and `Fr::from_le_bytes_mod_order` is little-endian byte interpretation
  followed by reduction modulo `bnR`.
-/

/-- The order of the BN254 scalar field, i.e. the modulus of `ark_bn254::Fr`.
All three groups used by the accumulator (G1, G2 and the pairing image) are
cyclic of this prime order. -/
def bnR : ℕ := 21888242871839275222246405745257275088548364400416034343698204186575808495617

instance : NeZero bnR := ⟨by decide⟩

/-- The BN254 scalar field `ark_bn254::Fr`. -/
abbrev Fr : Type := ZMod bnR

/-- A byte, the element type of the Rust slice `&[u8]`. -/
abbrev Byte : Type := Fin 256

/-- An element of the group G1, in discrete-logarithm coordinates: the exponent
`a : ZMod bnR` represents the group element `g1^a`. -/
abbrev G1 : Type := ZMod bnR

/-- An element of the group G2, in discrete-logarithm coordinates. -/
abbrev G2 : Type := ZMod bnR

/-- An element of the pairing image inside the target group, in
discrete-logarithm coordinates with respect to `e(g1, g2)`. -/
abbrev GT : Type := ZMod bnR

/-- `G1Projective::generator()`: the fixed generator of G1, exponent `1`. -/
def G1generator : G1 := 1

/-- `G2Projective::generator()`: the fixed generator of G2, exponent `1`. -/
def G2generator : G2 := 1

/-- The identity element of G1 (the point at infinity), exponent `0`. -/
def G1identity : G1 := 0

/-- Scalar multiplication `p * x` of a G1 element by a scalar
(`G1Projective: Mul<Fr>` in arkworks): on exponents, `g1^a * x = g1^(a * x)`. -/
def g1smul (p : G1) (x : Fr) : G1 := p * x

/-- The bilinear pairing `Bn254::pairing`: `e(g1^a, g2^b) = e(g1, g2)^(a * b)`,
so on exponents it is multiplication.  It is non-degenerate: the exponent map
is injective because the pairing image is cyclic of order `bnR` generated by
`e(g1, g2)`. -/
def pairing (a : G1) (b : G2) : GT := a * b

/-- The type of the external Keccak-256 digest function (`tiny_keccak`),
mapping a byte string to its 32-byte digest. -/
abbrev KeccakFn : Type := List Byte → List Byte

/-- `Fr::from_le_bytes_mod_order`: interpret a byte buffer as a little-endian
natural number and reduce it modulo the field order `bnR`. -/
def fr_from_le_bytes_mod_order (bytes : List Byte) : Fr :=
  ((Nat.ofDigits 256 (bytes.map Fin.val) : ℕ) : Fr)

/-!
Primality of `bnR`.  The staleness property (claim C8) needs `ZMod bnR` to be
an integral domain, i.e. `bnR` to be prime.  `bnR` is far too large for naive
primality checking, so we verify a Pratt / Lucas certificate: `powModAux` is a
fuel-bounded modular exponentiation by repeated squaring whose evaluations the
kernel can check on literals, and `lucas_primality` turns a primitive root
together with the factorisation of `p - 1` into a primality proof.  The
certificates for the large prime factors of `bnR - 1` are verified the same
way, recursively. -/

/-- Fuel-bounded modular exponentiation by repeated squaring:
`powModAux p fuel a e = a ^ e % p` whenever `e < 2 ^ fuel`. -/
def powModAux (p : ℕ) : ℕ → ℕ → ℕ → ℕ
  | 0, _, _ => 1 % p
  | fuel + 1, a, e =>
    if e = 0 then 1 % p
    else
      let h := powModAux p fuel (a * a % p) (e / 2)
      if e % 2 = 1 then h * a % p else h

theorem powModAux_eq (p : ℕ) :
    ∀ fuel a e : ℕ, e < 2 ^ fuel → powModAux p fuel a e = a ^ e % p := by
  intro fuel
  induction fuel with
  | zero =>
      intro a e he
      have h0 : e = 0 := by simpa using he
      subst h0
      simp [powModAux]
  | succ fuel ih =>
      intro a e he
      by_cases h0 : e = 0
      · subst h0; simp [powModAux]
      · have he2 : e / 2 < 2 ^ fuel := by
          rw [Nat.div_lt_iff_lt_mul (by norm_num : (0:ℕ) < 2)]
          rw [pow_succ] at he
          exact he
        have hsplit : a ^ e = (a * a) ^ (e / 2) * a ^ (e % 2) := by
          conv_lhs => rw [← Nat.div_add_mod e 2]
          rw [pow_add, pow_mul, pow_two]
        have hpow : (a * a % p) ^ (e / 2) % p = (a * a) ^ (e / 2) % p :=
          (Nat.pow_mod (a * a) (e / 2) p).symm
        simp only [powModAux, h0, if_false]
        rw [ih (a * a % p) (e / 2) he2]
        rcases Nat.mod_two_eq_zero_or_one e with h2 | h2
        · rw [h2, if_neg (by omega), hpow, hsplit, h2, pow_zero, mul_one]
        · rw [h2, if_pos rfl, hpow, Nat.mod_mul_mod, hsplit, h2, pow_one]

theorem zmod_pow_eq_of_powModAux (p a e v fuel : ℕ) (he : e < 2 ^ fuel)
    (h : powModAux p fuel a e = v) :
    ((a : ℕ) : ZMod p) ^ e = ((v : ℕ) : ZMod p) := by
  rw [← h, powModAux_eq p fuel a e he, ← Nat.cast_pow, ZMod.natCast_mod]

theorem zmod_natCast_ne_one (p v : ℕ) (hp : 1 < p) (hv : v < p) (hne : v ≠ 1) :
    ((v : ℕ) : ZMod p) ≠ 1 := by
  haveI : NeZero p := ⟨by omega⟩
  haveI : Fact (1 < p) := ⟨hp⟩
  intro h
  have h1 : ((v : ℕ) : ZMod p).val = v := ZMod.val_cast_of_lt hv
  rw [h, ZMod.val_one] at h1
  exact hne h1.symm

/-- One branch of a Lucas certificate: the power of the chosen witness at
`(p - 1) / q` is a residue different from `1`. -/
theorem cert_branch (p a E v fuel : ℕ) (he : E < 2 ^ fuel)
    (h : powModAux p fuel a E = v) (hp : 1 < p) (hv : v < p) (hne : v ≠ 1) :
    ((a : ℕ) : ZMod p) ^ E ≠ 1 := by
  rw [zmod_pow_eq_of_powModAux p a E v fuel he h]
  exact zmod_natCast_ne_one p v hp hv hne

set_option maxRecDepth 10000 in
/-- Lucas primality certificate for `639533339` with witness `2`. -/
theorem prime_p639533339 : Nat.Prime 639533339 := by
  have hp1 : (1 : ℕ) < 639533339 := by norm_num
  refine lucas_primality 639533339 ((2 : ℕ) : ZMod 639533339) ?_ ?_
  · have hN : (639533339 : ℕ) - 1 = 639533338 := by norm_num
    rw [hN, zmod_pow_eq_of_powModAux 639533339 2 639533338 1 32 (by norm_num) rfl]
    exact Nat.cast_one
  · intro q hq hdvd
    have hN : (639533339 : ℕ) - 1 = 639533338 := by norm_num
    rw [hN] at hdvd ⊢
    have hfac : (639533338 : ℕ) = 2 * (229 * (853 * (1637))) := by norm_num
    rw [hfac] at hdvd
    rcases (Nat.Prime.dvd_mul hq).mp hdvd with h | hdvd
    · have hqe : q = 2 := (Nat.prime_dvd_prime_iff_eq hq (by norm_num)).mp h
      subst hqe
      rw [show (639533338 : ℕ) / 2 = 319766669 by norm_num]
      exact cert_branch 639533339 2 319766669 639533338 32 (by norm_num) rfl hp1 (by norm_num) (by norm_num)
    rcases (Nat.Prime.dvd_mul hq).mp hdvd with h | hdvd
    · have hqe : q = 229 := (Nat.prime_dvd_prime_iff_eq hq (by norm_num)).mp h
      subst hqe
      rw [show (639533338 : ℕ) / 229 = 2792722 by norm_num]
      exact cert_branch 639533339 2 2792722 271298491 32 (by norm_num) rfl hp1 (by norm_num) (by norm_num)
    rcases (Nat.Prime.dvd_mul hq).mp hdvd with h | hdvd
    · have hqe : q = 853 := (Nat.prime_dvd_prime_iff_eq hq (by norm_num)).mp h
      subst hqe
      rw [show (639533338 : ℕ) / 853 = 749746 by norm_num]
      exact cert_branch 639533339 2 749746 256057581 32 (by norm_num) rfl hp1 (by norm_num) (by norm_num)
    have hqe : q = 1637 := (Nat.prime_dvd_prime_iff_eq hq (by norm_num)).mp hdvd
    subst hqe
    rw [show (639533338 : ℕ) / 1637 = 390674 by norm_num]
    exact cert_branch 639533339 2 390674 248876995 32 (by norm_num) rfl hp1 (by norm_num) (by norm_num)

set_option maxRecDepth 10000 in
/-- Lucas primality certificate for `65865678001877903` with witness `5`. -/
theorem prime_p65865678001877903 : Nat.Prime 65865678001877903 := by
  have hp1 : (1 : ℕ) < 65865678001877903 := by norm_num
  refine lucas_primality 65865678001877903 ((5 : ℕ) : ZMod 65865678001877903) ?_ ?_
  · have hN : (65865678001877903 : ℕ) - 1 = 65865678001877902 := by norm_num
    rw [hN, zmod_pow_eq_of_powModAux 65865678001877903 5 65865678001877902 1 58 (by norm_num) rfl]
    exact Nat.cast_one
  · intro q hq hdvd
    have hN : (65865678001877903 : ℕ) - 1 = 65865678001877902 := by norm_num
    rw [hN] at hdvd ⊢
    have hfac : (65865678001877902 : ℕ) = 2 * (83 * (379 * (1637 * (639533339)))) := by norm_num
    rw [hfac] at hdvd
    rcases (Nat.Prime.dvd_mul hq).mp hdvd with h | hdvd
    · have hqe : q = 2 := (Nat.prime_dvd_prime_iff_eq hq (by norm_num)).mp h
      subst hqe
      rw [show (65865678001877902 : ℕ) / 2 = 32932839000938951 by norm_num]
      exact cert_branch 65865678001877903 5 32932839000938951 65865678001877902 58 (by norm_num) rfl hp1 (by norm_num) (by norm_num)
    rcases (Nat.Prime.dvd_mul hq).mp hdvd with h | hdvd
    · have hqe : q = 83 := (Nat.prime_dvd_prime_iff_eq hq (by norm_num)).mp h
      subst hqe
      rw [show (65865678001877902 : ℕ) / 83 = 793562385564794 by norm_num]
      exact cert_branch 65865678001877903 5 793562385564794 46316002665751102 58 (by norm_num) rfl hp1 (by norm_num) (by norm_num)
    rcases (Nat.Prime.dvd_mul hq).mp hdvd with h | hdvd
    · have hqe : q = 379 := (Nat.prime_dvd_prime_iff_eq hq (by norm_num)).mp h
      subst hqe
      rw [show (65865678001877902 : ℕ) / 379 = 173788068606538 by norm_num]
      exact cert_branch 65865678001877903 5 173788068606538 43783936274874531 58 (by norm_num) rfl hp1 (by norm_num) (by norm_num)
    rcases (Nat.Prime.dvd_mul hq).mp hdvd with h | hdvd
    · have hqe : q = 1637 := (Nat.prime_dvd_prime_iff_eq hq (by norm_num)).mp h
      subst hqe
      rw [show (65865678001877902 : ℕ) / 1637 = 40235600489846 by norm_num]
      exact cert_branch 65865678001877903 5 40235600489846 56641079936670322 58 (by norm_num) rfl hp1 (by norm_num) (by norm_num)
    have hqe : q = 639533339 := (Nat.prime_dvd_prime_iff_eq hq prime_p639533339).mp hdvd
    subst hqe
    rw [show (65865678001877902 : ℕ) / 639533339 = 102990218 by norm_num]
    exact cert_branch 65865678001877903 5 102990218 18968088485270649 58 (by norm_num) rfl hp1 (by norm_num) (by norm_num)

set_option maxRecDepth 10000 in
/-- Lucas primality certificate for `13818364434197438864469338081` with witness `3`. -/
theorem prime_p13818364434197438864469338081 : Nat.Prime 13818364434197438864469338081 := by
  have hp1 : (1 : ℕ) < 13818364434197438864469338081 := by norm_num
  refine lucas_primality 13818364434197438864469338081 ((3 : ℕ) : ZMod 13818364434197438864469338081) ?_ ?_
  · have hN : (13818364434197438864469338081 : ℕ) - 1 = 13818364434197438864469338080 := by norm_num
    rw [hN, zmod_pow_eq_of_powModAux 13818364434197438864469338081 3 13818364434197438864469338080 1 96 (by norm_num) rfl]
    exact Nat.cast_one
  · intro q hq hdvd
    have hN : (13818364434197438864469338081 : ℕ) - 1 = 13818364434197438864469338080 := by norm_num
    rw [hN] at hdvd ⊢
    have hfac : (13818364434197438864469338080 : ℕ) = 2 ^ 5 * (5 * (823 * (1593227 * (65865678001877903)))) := by norm_num
    rw [hfac] at hdvd
    rcases (Nat.Prime.dvd_mul hq).mp hdvd with h | hdvd
    · have hqe : q = 2 := (Nat.prime_dvd_prime_iff_eq hq (by norm_num)).mp (hq.dvd_of_dvd_pow h)
      subst hqe
      rw [show (13818364434197438864469338080 : ℕ) / 2 = 6909182217098719432234669040 by norm_num]
      exact cert_branch 13818364434197438864469338081 3 6909182217098719432234669040 13818364434197438864469338080 96 (by norm_num) rfl hp1 (by norm_num) (by norm_num)
    rcases (Nat.Prime.dvd_mul hq).mp hdvd with h | hdvd
    · have hqe : q = 5 := (Nat.prime_dvd_prime_iff_eq hq (by norm_num)).mp h
      subst hqe
      rw [show (13818364434197438864469338080 : ℕ) / 5 = 2763672886839487772893867616 by norm_num]
      exact cert_branch 13818364434197438864469338081 3 2763672886839487772893867616 1236319344469036993987267104 96 (by norm_num) rfl hp1 (by norm_num) (by norm_num)
    rcases (Nat.Prime.dvd_mul hq).mp hdvd with h | hdvd
    · have hqe : q = 823 := (Nat.prime_dvd_prime_iff_eq hq (by norm_num)).mp h
      subst hqe
      rw [show (13818364434197438864469338080 : ℕ) / 823 = 16790236250543668122076960 by norm_num]
      exact cert_branch 13818364434197438864469338081 3 16790236250543668122076960 570363171180057177517864248 96 (by norm_num) rfl hp1 (by norm_num) (by norm_num)
    rcases (Nat.Prime.dvd_mul hq).mp hdvd with h | hdvd
    · have hqe : q = 1593227 := (Nat.prime_dvd_prime_iff_eq hq (by norm_num)).mp h
      subst hqe
      rw [show (13818364434197438864469338080 : ℕ) / 1593227 = 8673192479287282267040 by norm_num]
      exact cert_branch 13818364434197438864469338081 3 8673192479287282267040 9233249052774251384923794665 96 (by norm_num) rfl hp1 (by norm_num) (by norm_num)
    have hqe : q = 65865678001877903 := (Nat.prime_dvd_prime_iff_eq hq prime_p65865678001877903).mp hdvd
    subst hqe
    rw [show (13818364434197438864469338080 : ℕ) / 65865678001877903 = 209796131360 by norm_num]
    exact cert_branch 13818364434197438864469338081 3 209796131360 11685553033882782147454259209 96 (by norm_num) rfl hp1 (by norm_num) (by norm_num)

set_option maxRecDepth 10000 in
/-- Lucas primality certificate for `12048837557` with witness `2`. -/
theorem prime_p12048837557 : Nat.Prime 12048837557 := by
  have hp1 : (1 : ℕ) < 12048837557 := by norm_num
  refine lucas_primality 12048837557 ((2 : ℕ) : ZMod 12048837557) ?_ ?_
  · have hN : (12048837557 : ℕ) - 1 = 12048837556 := by norm_num
    rw [hN, zmod_pow_eq_of_powModAux 12048837557 2 12048837556 1 36 (by norm_num) rfl]
    exact Nat.cast_one
  · intro q hq hdvd
    have hN : (12048837557 : ℕ) - 1 = 12048837556 := by norm_num
    rw [hN] at hdvd ⊢
    have hfac : (12048837556 : ℕ) = 2 ^ 2 * (7 ^ 2 * (661 * (93001))) := by norm_num
    rw [hfac] at hdvd
    rcases (Nat.Prime.dvd_mul hq).mp hdvd with h | hdvd
    · have hqe : q = 2 := (Nat.prime_dvd_prime_iff_eq hq (by norm_num)).mp (hq.dvd_of_dvd_pow h)
      subst hqe
      rw [show (12048837556 : ℕ) / 2 = 6024418778 by norm_num]
      exact cert_branch 12048837557 2 6024418778 12048837556 36 (by norm_num) rfl hp1 (by norm_num) (by norm_num)
    rcases (Nat.Prime.dvd_mul hq).mp hdvd with h | hdvd
    · have hqe : q = 7 := (Nat.prime_dvd_prime_iff_eq hq (by norm_num)).mp (hq.dvd_of_dvd_pow h)
      subst hqe
      rw [show (12048837556 : ℕ) / 7 = 1721262508 by norm_num]
      exact cert_branch 12048837557 2 1721262508 41029474 36 (by norm_num) rfl hp1 (by norm_num) (by norm_num)
    rcases (Nat.Prime.dvd_mul hq).mp hdvd with h | hdvd
    · have hqe : q = 661 := (Nat.prime_dvd_prime_iff_eq hq (by norm_num)).mp h
      subst hqe
      rw [show (12048837556 : ℕ) / 661 = 18228196 by norm_num]
      exact cert_branch 12048837557 2 18228196 8877273464 36 (by norm_num) rfl hp1 (by norm_num) (by norm_num)
    have hqe : q = 93001 := (Nat.prime_dvd_prime_iff_eq hq (by norm_num)).mp hdvd
    subst hqe
    rw [show (12048837556 : ℕ) / 93001 = 129556 by norm_num]
    exact cert_branch 12048837557 2 129556 4746995210 36 (by norm_num) rfl hp1 (by norm_num) (by norm_num)

set_option maxRecDepth 10000 in
/-- Lucas primality certificate for `5156902474397` with witness `2`. -/
theorem prime_p5156902474397 : Nat.Prime 5156902474397 := by
  have hp1 : (1 : ℕ) < 5156902474397 := by norm_num
  refine lucas_primality 5156902474397 ((2 : ℕ) : ZMod 5156902474397) ?_ ?_
  · have hN : (5156902474397 : ℕ) - 1 = 5156902474396 := by norm_num
    rw [hN, zmod_pow_eq_of_powModAux 5156902474397 2 5156902474396 1 45 (by norm_num) rfl]
    exact Nat.cast_one
  · intro q hq hdvd
    have hN : (5156902474397 : ℕ) - 1 = 5156902474396 := by norm_num
    rw [hN] at hdvd ⊢
    have hfac : (5156902474396 : ℕ) = 2 ^ 2 * (107 * (12048837557)) := by norm_num
    rw [hfac] at hdvd
    rcases (Nat.Prime.dvd_mul hq).mp hdvd with h | hdvd
    · have hqe : q = 2 := (Nat.prime_dvd_prime_iff_eq hq (by norm_num)).mp (hq.dvd_of_dvd_pow h)
      subst hqe
      rw [show (5156902474396 : ℕ) / 2 = 2578451237198 by norm_num]
      exact cert_branch 5156902474397 2 2578451237198 5156902474396 45 (by norm_num) rfl hp1 (by norm_num) (by norm_num)
    rcases (Nat.Prime.dvd_mul hq).mp hdvd with h | hdvd
    · have hqe : q = 107 := (Nat.prime_dvd_prime_iff_eq hq (by norm_num)).mp h
      subst hqe
      rw [show (5156902474396 : ℕ) / 107 = 48195350228 by norm_num]
      exact cert_branch 5156902474397 2 48195350228 4827909776387 45 (by norm_num) rfl hp1 (by norm_num) (by norm_num)
    have hqe : q = 12048837557 := (Nat.prime_dvd_prime_iff_eq hq prime_p12048837557).mp hdvd
    subst hqe
    rw [show (5156902474396 : ℕ) / 12048837557 = 428 by norm_num]
    exact cert_branch 5156902474397 2 428 4746712836098 45 (by norm_num) rfl hp1 (by norm_num) (by norm_num)

set_option maxRecDepth 10000 in
/-- Lucas primality certificate for `1670836401704629` with witness `2`. -/
theorem prime_p1670836401704629 : Nat.Prime 1670836401704629 := by
  have hp1 : (1 : ℕ) < 1670836401704629 := by norm_num
  refine lucas_primality 1670836401704629 ((2 : ℕ) : ZMod 1670836401704629) ?_ ?_
  · have hN : (1670836401704629 : ℕ) - 1 = 1670836401704628 := by norm_num
    rw [hN, zmod_pow_eq_of_powModAux 1670836401704629 2 1670836401704628 1 53 (by norm_num) rfl]
    exact Nat.cast_one
  · intro q hq hdvd
    have hN : (1670836401704629 : ℕ) - 1 = 1670836401704628 := by norm_num
    rw [hN] at hdvd ⊢
    have hfac : (1670836401704628 : ℕ) = 2 ^ 2 * (3 ^ 4 * (5156902474397)) := by norm_num
    rw [hfac] at hdvd
    rcases (Nat.Prime.dvd_mul hq).mp hdvd with h | hdvd
    · have hqe : q = 2 := (Nat.prime_dvd_prime_iff_eq hq (by norm_num)).mp (hq.dvd_of_dvd_pow h)
      subst hqe
      rw [show (1670836401704628 : ℕ) / 2 = 835418200852314 by norm_num]
      exact cert_branch 1670836401704629 2 835418200852314 1670836401704628 53 (by norm_num) rfl hp1 (by norm_num) (by norm_num)
    rcases (Nat.Prime.dvd_mul hq).mp hdvd with h | hdvd
    · have hqe : q = 3 := (Nat.prime_dvd_prime_iff_eq hq (by norm_num)).mp (hq.dvd_of_dvd_pow h)
      subst hqe
      rw [show (1670836401704628 : ℕ) / 3 = 556945467234876 by norm_num]
      exact cert_branch 1670836401704629 2 556945467234876 1322408984917240 53 (by norm_num) rfl hp1 (by norm_num) (by norm_num)
    have hqe : q = 5156902474397 := (Nat.prime_dvd_prime_iff_eq hq prime_p5156902474397).mp hdvd
    subst hqe
    rw [show (1670836401704628 : ℕ) / 5156902474397 = 324 by norm_num]
    exact cert_branch 1670836401704629 2 324 11046204280772 53 (by norm_num) rfl hp1 (by norm_num) (by norm_num)

set_option maxRecDepth 10000 in
/-- Lucas primality certificate for `405928799` with witness `22`. -/
theorem prime_p405928799 : Nat.Prime 405928799 := by
  have hp1 : (1 : ℕ) < 405928799 := by norm_num
  refine lucas_primality 405928799 ((22 : ℕ) : ZMod 405928799) ?_ ?_
  · have hN : (405928799 : ℕ) - 1 = 405928798 := by norm_num
    rw [hN, zmod_pow_eq_of_powModAux 405928799 22 405928798 1 31 (by norm_num) rfl]
    exact Nat.cast_one
  · intro q hq hdvd
    have hN : (405928799 : ℕ) - 1 = 405928798 := by norm_num
    rw [hN] at hdvd ⊢
    have hfac : (405928798 : ℕ) = 2 * (11 * (3691 * (4999))) := by norm_num
    rw [hfac] at hdvd
    rcases (Nat.Prime.dvd_mul hq).mp hdvd with h | hdvd
    · have hqe : q = 2 := (Nat.prime_dvd_prime_iff_eq hq (by norm_num)).mp h
      subst hqe
      rw [show (405928798 : ℕ) / 2 = 202964399 by norm_num]
      exact cert_branch 405928799 22 202964399 405928798 31 (by norm_num) rfl hp1 (by norm_num) (by norm_num)
    rcases (Nat.Prime.dvd_mul hq).mp hdvd with h | hdvd
    · have hqe : q = 11 := (Nat.prime_dvd_prime_iff_eq hq (by norm_num)).mp h
      subst hqe
      rw [show (405928798 : ℕ) / 11 = 36902618 by norm_num]
      exact cert_branch 405928799 22 36902618 215859951 31 (by norm_num) rfl hp1 (by norm_num) (by norm_num)
    rcases (Nat.Prime.dvd_mul hq).mp hdvd with h | hdvd
    · have hqe : q = 3691 := (Nat.prime_dvd_prime_iff_eq hq (by norm_num)).mp h
      subst hqe
      rw [show (405928798 : ℕ) / 3691 = 109978 by norm_num]
      exact cert_branch 405928799 22 109978 147917081 31 (by norm_num) rfl hp1 (by norm_num) (by norm_num)
    have hqe : q = 4999 := (Nat.prime_dvd_prime_iff_eq hq (by norm_num)).mp hdvd
    subst hqe
    rw [show (405928798 : ℕ) / 4999 = 81202 by norm_num]
    exact cert_branch 405928799 22 81202 61847818 31 (by norm_num) rfl hp1 (by norm_num) (by norm_num)

set_option maxRecDepth 10000 in
/-- Lucas primality certificate for `21888242871839275222246405745257275088548364400416034343698204186575808495617` with witness `5`. -/
theorem prime_p21888242871839275222246405745257275088548364400416034343698204186575808495617 : Nat.Prime 21888242871839275222246405745257275088548364400416034343698204186575808495617 := by
  have hp1 : (1 : ℕ) < 21888242871839275222246405745257275088548364400416034343698204186575808495617 := by norm_num
  refine lucas_primality 21888242871839275222246405745257275088548364400416034343698204186575808495617 ((5 : ℕ) : ZMod 21888242871839275222246405745257275088548364400416034343698204186575808495617) ?_ ?_
  · have hN : (21888242871839275222246405745257275088548364400416034343698204186575808495617 : ℕ) - 1 = 21888242871839275222246405745257275088548364400416034343698204186575808495616 := by norm_num
    rw [hN, zmod_pow_eq_of_powModAux 21888242871839275222246405745257275088548364400416034343698204186575808495617 5 21888242871839275222246405745257275088548364400416034343698204186575808495616 1 256 (by norm_num) rfl]
    exact Nat.cast_one
  · intro q hq hdvd
    have hN : (21888242871839275222246405745257275088548364400416034343698204186575808495617 : ℕ) - 1 = 21888242871839275222246405745257275088548364400416034343698204186575808495616 := by norm_num
    rw [hN] at hdvd ⊢
    have hfac : (21888242871839275222246405745257275088548364400416034343698204186575808495616 : ℕ) = 2 ^ 28 * (3 ^ 2 * (13 * (29 * (983 * (11003 * (237073 * (405928799 * (1670836401704629 * (13818364434197438864469338081))))))))) := by norm_num
    rw [hfac] at hdvd
    rcases (Nat.Prime.dvd_mul hq).mp hdvd with h | hdvd
    · have hqe : q = 2 := (Nat.prime_dvd_prime_iff_eq hq (by norm_num)).mp (hq.dvd_of_dvd_pow h)
      subst hqe
      rw [show (21888242871839275222246405745257275088548364400416034343698204186575808495616 : ℕ) / 2 = 10944121435919637611123202872628637544274182200208017171849102093287904247808 by norm_num]
      exact cert_branch 21888242871839275222246405745257275088548364400416034343698204186575808495617 5 10944121435919637611123202872628637544274182200208017171849102093287904247808 21888242871839275222246405745257275088548364400416034343698204186575808495616 256 (by norm_num) rfl hp1 (by norm_num) (by norm_num)
    rcases (Nat.Prime.dvd_mul hq).mp hdvd with h | hdvd
    · have hqe : q = 3 := (Nat.prime_dvd_prime_iff_eq hq (by norm_num)).mp (hq.dvd_of_dvd_pow h)
      subst hqe
      rw [show (21888242871839275222246405745257275088548364400416034343698204186575808495616 : ℕ) / 3 = 7296080957279758407415468581752425029516121466805344781232734728858602831872 by norm_num]
      exact cert_branch 21888242871839275222246405745257275088548364400416034343698204186575808495617 5 7296080957279758407415468581752425029516121466805344781232734728858602831872 4407920970296243842393367215006156084916469457145843978461 256 (by norm_num) rfl hp1 (by norm_num) (by norm_num)
    rcases (Nat.Prime.dvd_mul hq).mp hdvd with h | hdvd
    · have hqe : q = 13 := (Nat.prime_dvd_prime_iff_eq hq (by norm_num)).mp h
      subst hqe
      rw [show (21888242871839275222246405745257275088548364400416034343698204186575808495616 : ℕ) / 13 = 1683710990141482709403569672712098083734489569262771872592169552813523730432 by norm_num]
      exact cert_branch 21888242871839275222246405745257275088548364400416034343698204186575808495617 5 1683710990141482709403569672712098083734489569262771872592169552813523730432 20846111736645777009767703653665533493788639406277865704073555848150445038125 256 (by norm_num) rfl hp1 (by norm_num) (by norm_num)
    rcases (Nat.Prime.dvd_mul hq).mp hdvd with h | hdvd
    · have hqe : q = 29 := (Nat.prime_dvd_prime_iff_eq hq (by norm_num)).mp h
      subst hqe
      rw [show (21888242871839275222246405745257275088548364400416034343698204186575808495616 : ℕ) / 29 = 754766995580664662836082956733009485812012565531587391162007040916407189504 by norm_num]
      exact cert_branch 21888242871839275222246405745257275088548364400416034343698204186575808495617 5 754766995580664662836082956733009485812012565531587391162007040916407189504 18357710930920482893114740859477755941065533295300174657912055312005893977631 256 (by norm_num) rfl hp1 (by norm_num) (by norm_num)
    rcases (Nat.Prime.dvd_mul hq).mp hdvd with h | hdvd
    · have hqe : q = 983 := (Nat.prime_dvd_prime_iff_eq hq (by norm_num)).mp h
      subst hqe
      rw [show (21888242871839275222246405745257275088548364400416034343698204186575808495616 : ℕ) / 983 = 22266778099531307448877320188461114027007491760341845720954429487869591552 by norm_num]
      exact cert_branch 21888242871839275222246405745257275088548364400416034343698204186575808495617 5 22266778099531307448877320188461114027007491760341845720954429487869591552 16151937248511612831218790030381502136078900305644383989873770910345603053439 256 (by norm_num) rfl hp1 (by norm_num) (by norm_num)
    rcases (Nat.Prime.dvd_mul hq).mp hdvd with h | hdvd
    · have hqe : q = 11003 := (Nat.prime_dvd_prime_iff_eq hq (by norm_num)).mp h
      subst hqe
      rw [show (21888242871839275222246405745257275088548364400416034343698204186575808495616 : ℕ) / 11003 = 1989297725333025104266691424634851866631679033028813445760083994053967872 by norm_num]
      exact cert_branch 21888242871839275222246405745257275088548364400416034343698204186575808495617 5 1989297725333025104266691424634851866631679033028813445760083994053967872 8299083658399422953216871473066571686783765754016288837524968026835148283600 256 (by norm_num) rfl hp1 (by norm_num) (by norm_num)
    rcases (Nat.Prime.dvd_mul hq).mp hdvd with h | hdvd
    · have hqe : q = 237073 := (Nat.prime_dvd_prime_iff_eq hq (by norm_num)).mp h
      subst hqe
      rw [show (21888242871839275222246405745257275088548364400416034343698204186575808495616 : ℕ) / 237073 = 92327016875980289709272695521030547926370208334209439049146061283131392 by norm_num]
      exact cert_branch 21888242871839275222246405745257275088548364400416034343698204186575808495617 5 92327016875980289709272695521030547926370208334209439049146061283131392 1135558486015409621676726807058439328573409521523979529600469708688064761941 256 (by norm_num) rfl hp1 (by norm_num) (by norm_num)
    rcases (Nat.Prime.dvd_mul hq).mp hdvd with h | hdvd
    · have hqe : q = 405928799 := (Nat.prime_dvd_prime_iff_eq hq prime_p405928799).mp h
      subst hqe
      rw [show (21888242871839275222246405745257275088548364400416034343698204186575808495616 : ℕ) / 405928799 = 53921384552563552462426805409431605981098090062873401459989056323584 by norm_num]
      exact cert_branch 21888242871839275222246405745257275088548364400416034343698204186575808495617 5 53921384552563552462426805409431605981098090062873401459989056323584 19321818016159037061311250724021617607548090886696614157910334987366532500238 256 (by norm_num) rfl hp1 (by norm_num) (by norm_num)
    rcases (Nat.Prime.dvd_mul hq).mp hdvd with h | hdvd
    · have hqe : q = 1670836401704629 := (Nat.prime_dvd_prime_iff_eq hq prime_p1670836401704629).mp h
      subst hqe
      rw [show (21888242871839275222246405745257275088548364400416034343698204186575808495616 : ℕ) / 1670836401704629 = 13100171177446423556613374118717413492986637444144570673659904 by norm_num]
      exact cert_branch 21888242871839275222246405745257275088548364400416034343698204186575808495617 5 13100171177446423556613374118717413492986637444144570673659904 19643034808648967981397807206080768497060516784825884862247505212574391305991 256 (by norm_num) rfl hp1 (by norm_num) (by norm_num)
    have hqe : q = 13818364434197438864469338081 := (Nat.prime_dvd_prime_iff_eq hq prime_p13818364434197438864469338081).mp hdvd
    subst hqe
    rw [show (21888242871839275222246405745257275088548364400416034343698204186575808495616 : ℕ) / 13818364434197438864469338081 = 1583996642733683218748855262055434666238317428736 by norm_num]
    exact cert_branch 21888242871839275222246405745257275088548364400416034343698204186575808495617 5 1583996642733683218748855262055434666238317428736 7740382856488830440021062471495669005558519249383073335662966997885018076746 256 (by norm_num) rfl hp1 (by norm_num) (by norm_num)

/-- The BN254 scalar field order is prime. -/
theorem bnR_prime : Nat.Prime bnR :=
  prime_p21888242871839275222246405745257275088548364400416034343698204186575808495617


/-- The state of `Bn254Accumulator`: the two generators, the accumulated value
and the ordered list of added scalars. -/
structure Bn254Accumulator where
  g1 : G1
  g2 : G2
  acc : G1
  members : List Fr
deriving DecidableEq

namespace Bn254Accumulator

/-- `Bn254Accumulator::new()`: both generators, `acc = g1`, no members. -/
def new : Bn254Accumulator :=
  { g1 := G1generator, g2 := G2generator, acc := G1generator, members := [] }

/-- `Bn254Accumulator::hash_to_scalar`: Keccak-256 digest of the input,
then little-endian reduction modulo the field order. -/
def hash_to_scalar (keccak : KeccakFn) (input : List Byte) : Fr :=
  fr_from_le_bytes_mod_order (keccak input)

/-- `Bn254Accumulator::add_member`: hash the member to a scalar `x`, multiply
`acc` by `x` (scalar multiplication in G1), push `x` onto `members`, return
the updated state together with the returned scalar `x`. -/
def add_member (keccak : KeccakFn) (s : Bn254Accumulator) (member : List Byte) :
    Bn254Accumulator × Fr :=
  let x := hash_to_scalar keccak member
  ({ s with acc := g1smul s.acc x, members := s.members ++ [x] }, x)

/-- One iteration of the `for xi in &self.members` loop of
`membership_witness`: the loop state is the pair `(product, found)`; the first
element equal to `x` while `found` is still `false` is skipped and sets
`found`, every other element is multiplied into `product`. -/
def witness_step (x : Fr) (st : Fr × Bool) (xi : Fr) : Fr × Bool :=
  if xi = x ∧ st.2 = false then (st.1, true) else (st.1 * xi, st.2)

/-- `Bn254Accumulator::membership_witness`: fold the loop over `members`
starting from `(1, false)`; if the scalar was found return
`some (g1 * product)`, otherwise `none`. -/
def membership_witness (s : Bn254Accumulator) (x : Fr) : Option G1 :=
  let st := s.members.foldl (witness_step x) ((1 : Fr), false)
  if st.2 = true then some (g1smul s.g1 st.1) else none

/-- `Bn254Accumulator::verify_membership`: compare the pairings
`e(witness * x, g2)` and `e(acc, g2)`. -/
def verify_membership (s : Bn254Accumulator) (x : Fr) (w : G1) : Bool :=
  decide (pairing (g1smul w x) s.g2 = pairing s.acc s.g2)

/-- A sequence of `add_member` calls (discarding the returned scalars). -/
def add_all (keccak : KeccakFn) (s : Bn254Accumulator) (ms : List (List Byte)) :
    Bn254Accumulator :=
  ms.foldl (fun t m => (add_member keccak t m).1) s

/-- The accumulator invariant: `acc` is `g1` scalar-multiplied by the product
of all recorded scalars. -/
def accInvariant (s : Bn254Accumulator) : Prop :=
  s.acc = g1smul s.g1 s.members.prod

theorem add_all_cons (keccak : KeccakFn) (s : Bn254Accumulator) (m : List Byte)
    (ms : List (List Byte)) :
    add_all keccak s (m :: ms) = add_all keccak (add_member keccak s m).1 ms := rfl

theorem add_all_g1 (keccak : KeccakFn) (ms : List (List Byte)) (s : Bn254Accumulator) :
    (add_all keccak s ms).g1 = s.g1 := by
  induction ms generalizing s with
  | nil => rfl
  | cons m ms ih => rw [add_all_cons, ih]; rfl

theorem add_all_g2 (keccak : KeccakFn) (ms : List (List Byte)) (s : Bn254Accumulator) :
    (add_all keccak s ms).g2 = s.g2 := by
  induction ms generalizing s with
  | nil => rfl
  | cons m ms ih => rw [add_all_cons, ih]; rfl

theorem add_all_members (keccak : KeccakFn) (ms : List (List Byte)) (s : Bn254Accumulator) :
    (add_all keccak s ms).members = s.members ++ ms.map (hash_to_scalar keccak) := by
  induction ms generalizing s with
  | nil => simp [add_all]
  | cons m ms ih => simp [add_all_cons, ih, add_member]

theorem add_all_acc (keccak : KeccakFn) (ms : List (List Byte)) (s : Bn254Accumulator) :
    (add_all keccak s ms).acc = s.acc * (ms.map (hash_to_scalar keccak)).prod := by
  induction ms generalizing s with
  | nil => simp [add_all]
  | cons m ms ih => simp [add_all_cons, ih, add_member, g1smul, mul_assoc]

theorem foldl_witness_step_found (x : Fr) (l : List Fr) :
    ∀ p : Fr, l.foldl (witness_step x) (p, true) = (p * l.prod, true) := by
  induction l with
  | nil => intro p; simp
  | cons a l ih => intro p; simp [witness_step, ih, mul_assoc]

theorem foldl_witness_step_not_mem (x : Fr) (l : List Fr) :
    x ∉ l → ∀ p : Fr, l.foldl (witness_step x) (p, false) = (p * l.prod, false) := by
  induction l with
  | nil => intro _ p; simp
  | cons a l ih =>
      intro h p
      rw [List.mem_cons, not_or] at h
      have hax : ¬(a = x) := fun hh => h.1 hh.symm
      simp [witness_step, hax, ih h.2, mul_assoc]

theorem foldl_witness_step_mem (x : Fr) (l : List Fr) :
    x ∈ l → ∀ p : Fr, l.foldl (witness_step x) (p, false) = (p * (l.erase x).prod, true) := by
  induction l with
  | nil => intro h; cases h
  | cons a l ih =>
      intro h p
      by_cases hax : a = x
      · subst hax
        simp [witness_step, List.erase_cons_head, foldl_witness_step_found]
      · have hxl : x ∈ l := by
          rcases List.mem_cons.mp h with h1 | h2
          · exact absurd h1.symm hax
          · exact h2
        simp [witness_step, hax, ih hxl, List.erase_cons, mul_assoc]

theorem membership_witness_spec (s : Bn254Accumulator) (x : Fr) :
    membership_witness s x =
      if x ∈ s.members then some (g1smul s.g1 (s.members.erase x).prod) else none := by
  by_cases h : x ∈ s.members
  · simp [membership_witness, foldl_witness_step_mem x s.members h 1, h]
  · simp [membership_witness, foldl_witness_step_not_mem x s.members h 1, h]

/-- A concrete stand-in for the external digest function, used to exercise the
parametric theorems on explicit inputs. -/
def keccakId : KeccakFn := fun l => l

/-- A concrete accumulator state with a duplicated member. -/
def sampleDup : Bn254Accumulator := { g1 := 1, g2 := 1, acc := 12, members := [2, 3, 2] }

/-- A concrete accumulator state with two distinct members. -/
def sampleTwo : Bn254Accumulator := { g1 := 1, g2 := 1, acc := 6, members := [2, 3] }

/-- C1: starting from `new` (whose `acc` is `g1` and whose member list is
empty), after any sequence of `add_member` calls the state satisfies
`acc = g1` scalar-multiplied by the product of all scalars ever added, and
each individual `add_member` call preserves this invariant. -/
theorem add_member_preserves_invariant :
    accInvariant new ∧
    (∀ (keccak : KeccakFn) (s : Bn254Accumulator) (m : List Byte),
      accInvariant s → accInvariant (add_member keccak s m).1) ∧
    (∀ (keccak : KeccakFn) (ms : List (List Byte)),
      accInvariant (add_all keccak new ms)) := by
  refine ⟨by simp [accInvariant, new, g1smul], ?_, ?_⟩
  · intro keccak s m h
    simp only [accInvariant, add_member, g1smul, List.prod_append, List.prod_cons,
      List.prod_nil] at h ⊢
    rw [h]; ring
  · intro keccak ms
    simp [accInvariant, add_all_acc, add_all_members, add_all_g1, new, g1smul, G1generator]

/-- Witness for C1: the invariant transported through one concrete call. -/
theorem add_member_preserves_invariant_witness :
    accInvariant (add_member keccakId new [2]).1 :=
  add_member_preserves_invariant.2.1 keccakId new [2]
    (by simp [accInvariant, new, g1smul])

/-- C2: completeness: a scalar obtained by hashing a byte string that was
added somewhere in the sequence has a witness on the resulting state, and
that witness verifies against the same state. -/
theorem added_member_witness_verifies (keccak : KeccakFn) (ms : List (List Byte))
    (m : List Byte) (hm : m ∈ ms) :
    ∃ w : G1,
      membership_witness (add_all keccak new ms) (hash_to_scalar keccak m) = some w ∧
      verify_membership (add_all keccak new ms) (hash_to_scalar keccak m) w = true := by
  have hmem : (add_all keccak new ms).members = ms.map (hash_to_scalar keccak) := by
    rw [add_all_members]; simp [new]
  have hx : hash_to_scalar keccak m ∈ (add_all keccak new ms).members := by
    rw [hmem]; exact List.mem_map_of_mem _ hm
  have hg1 : (add_all keccak new ms).g1 = 1 := by
    rw [add_all_g1]; rfl
  have hacc : (add_all keccak new ms).acc = ((add_all keccak new ms).members).prod := by
    rw [add_all_acc, hmem]; simp [new, G1generator]
  refine ⟨g1smul (add_all keccak new ms).g1
      (((add_all keccak new ms).members.erase (hash_to_scalar keccak m)).prod), ?_, ?_⟩
  · rw [membership_witness_spec, if_pos hx]
  · have hprod := List.prod_erase hx
    simp only [verify_membership, pairing, g1smul, hg1, hacc, one_mul, decide_eq_true_eq]
    rw [← hprod]; ring

/-- Witness for C2 at a concrete added member. -/
theorem added_member_witness_verifies_witness :
    ∃ w : G1,
      membership_witness (add_all keccakId new [[2]]) (hash_to_scalar keccakId [2]) = some w ∧
      verify_membership (add_all keccakId new [[2]]) (hash_to_scalar keccakId [2]) w = true :=
  added_member_witness_verifies keccakId [[2]] [2] (by decide)

/-- C3: for a scalar `x` occurring in `members`, `membership_witness` returns
`some` of `g1` scalar-multiplied by the product of all entries except exactly
the first occurrence equal to `x` (`List.erase` removes exactly the first
occurrence, so later duplicates stay in the product). -/
theorem witness_skips_first_occurrence (s : Bn254Accumulator) (x : Fr)
    (hx : x ∈ s.members) :
    membership_witness s x = some (g1smul s.g1 (s.members.erase x).prod) := by
  rw [membership_witness_spec, if_pos hx]

/-- Witness for C3 on a state whose member list contains a duplicate. -/
theorem witness_skips_first_occurrence_witness :
    membership_witness sampleDup 2 =
      some (g1smul sampleDup.g1 (sampleDup.members.erase 2).prod) :=
  witness_skips_first_occurrence sampleDup 2 (by decide)

/-- C4: `membership_witness` returns `none` exactly when the scalar does not
occur in `members`; absence is a returned value (the function is total). -/
theorem witness_none_iff_not_member (s : Bn254Accumulator) (x : Fr) :
    membership_witness s x = none ↔ x ∉ s.members := by
  rw [membership_witness_spec]
  by_cases h : x ∈ s.members <;> simp [h]

/-- Witness for C4 on a scalar that was never added. -/
theorem witness_none_iff_not_member_witness :
    membership_witness sampleTwo 5 = none :=
  (witness_none_iff_not_member sampleTwo 5).mpr (by decide)

/-- C5: `verify_membership` returns `true` iff the pairing of
`witness * x` with `g2` equals the pairing of `acc` with `g2`, and (for the
generator `g2` fixed by the constructor, by non-degeneracy of the pairing)
iff `witness` scalar-multiplied by `x` equals `acc`. -/
theorem verify_iff_pairing_eq (s : Bn254Accumulator) (x : Fr) (w : G1)
    (hg2 : s.g2 = G2generator) :
    (verify_membership s x w = true ↔ pairing (g1smul w x) s.g2 = pairing s.acc s.g2) ∧
    (verify_membership s x w = true ↔ g1smul w x = s.acc) := by
  constructor
  · simp [verify_membership]
  · simp [verify_membership, pairing, g1smul, hg2, G2generator]

/-- Witness for C5 at a concrete state, scalar and claimed witness. -/
theorem verify_iff_pairing_eq_witness :
    (verify_membership sampleTwo 2 3 = true ↔
      pairing (g1smul 3 2) sampleTwo.g2 = pairing sampleTwo.acc sampleTwo.g2) ∧
    (verify_membership sampleTwo 2 3 = true ↔ g1smul 3 2 = sampleTwo.acc) :=
  verify_iff_pairing_eq sampleTwo 2 3 (by decide)

/-- C6: `add_member` hashes the input, scalar-multiplies `acc` by the result,
appends it to `members`, leaves `g1` and `g2` unchanged, and returns the
scalar; it is a total function. -/
theorem add_member_updates_state (keccak : KeccakFn) (s : Bn254Accumulator)
    (m : List Byte) :
    add_member keccak s m =
      ({ g1 := s.g1, g2 := s.g2, acc := g1smul s.acc (hash_to_scalar keccak m),
         members := s.members ++ [hash_to_scalar keccak m] }, hash_to_scalar keccak m) := rfl

/-- C7: adding the same multiset of byte strings in two different orders to a
fresh accumulator yields the same final `acc`. -/
theorem final_acc_order_independent (keccak : KeccakFn) (ms1 ms2 : List (List Byte))
    (h : ms1.Perm ms2) :
    (add_all keccak new ms1).acc = (add_all keccak new ms2).acc := by
  rw [add_all_acc, add_all_acc, List.Perm.prod_eq (h.map (hash_to_scalar keccak))]

/-- Witness for C7 on two concrete orders of the same two members. -/
theorem final_acc_order_independent_witness :
    (add_all keccakId new [[2], [3]]).acc = (add_all keccakId new [[3], [2]]).acc :=
  final_acc_order_independent keccakId [[2], [3]] [[3], [2]] (by decide)

/-- C9: `hash_to_scalar` is a pure function of its input bytes: equal inputs
give equal scalars, the scalar returned by `add_member` does not depend on the
accumulator instance, and every byte sequence (including the empty one)
produces a scalar already reduced below the field order. -/
theorem hash_to_scalar_pure :
    (∀ (keccak : KeccakFn) (b1 b2 : List Byte), b1 = b2 →
        hash_to_scalar keccak b1 = hash_to_scalar keccak b2) ∧
    (∀ (keccak : KeccakFn) (s t : Bn254Accumulator) (m : List Byte),
        (add_member keccak s m).2 = (add_member keccak t m).2) ∧
    (∀ (keccak : KeccakFn) (input : List Byte), (hash_to_scalar keccak input).val < bnR) :=
  ⟨fun _ _ _ h => by rw [h], fun _ _ _ _ => rfl, fun _ _ => ZMod.val_lt _⟩

/-- Witness for C9 on a concrete input. -/
theorem hash_to_scalar_pure_witness :
    hash_to_scalar keccakId [2, 7] = hash_to_scalar keccakId [2, 7] :=
  hash_to_scalar_pure.1 keccakId [2, 7] [2, 7] rfl

/-- The call semantics of the Rust method `membership_witness`: it takes
`&self` (a shared borrow, and the struct has no interior mutability), so a
call leaves the receiver unchanged and produces the return value. -/
def membership_witness_call (s : Bn254Accumulator) (x : Fr) :
    Bn254Accumulator × Option G1 :=
  (s, membership_witness s x)

/-- The call semantics of the Rust method `verify_membership`, which likewise
takes `&self`. -/
def verify_membership_call (s : Bn254Accumulator) (x : Fr) (w : G1) :
    Bn254Accumulator × Bool :=
  (s, verify_membership s x w)

/-- C10: calling `membership_witness` or `verify_membership` leaves the whole
state (`g1`, `g2`, `acc`, `members`) unchanged, while `add_member` always
changes `members` (it strictly extends the list). -/
theorem reader_calls_leave_state_unchanged :
    (∀ (s : Bn254Accumulator) (x : Fr), (membership_witness_call s x).1 = s) ∧
    (∀ (s : Bn254Accumulator) (x : Fr) (w : G1), (verify_membership_call s x w).1 = s) ∧
    (∀ (keccak : KeccakFn) (s : Bn254Accumulator) (m : List Byte),
        ((add_member keccak s m).1).members ≠ s.members) := by
  refine ⟨fun _ _ => rfl, fun _ _ _ => rfl, fun keccak s m h => ?_⟩
  have hlen := congrArg List.length h
  simp [add_member] at hlen

/-- Witness for C10: a concrete `add_member` call does change `members`. -/
theorem reader_calls_leave_state_unchanged_witness :
    ((add_member keccakId new [2]).1).members ≠ new.members :=
  reader_calls_leave_state_unchanged.2.2 keccakId new [2]

/-- Unfolding of the state returned by `add_member`. -/
theorem add_member_fst (keccak : KeccakFn) (s : Bn254Accumulator) (m : List Byte) :
    (add_member keccak s m).1 =
      { g1 := s.g1, g2 := s.g2, acc := g1smul s.acc (hash_to_scalar keccak m),
        members := s.members ++ [hash_to_scalar keccak m] } := rfl

/-- C8: staleness rejection: a witness computed for a member of the current
state fails `verify_membership` after one further `add_member` call, except in
the degenerate cases named by the claim: the newly added scalar is the
multiplicative identity `1`, or the prior accumulated value is the identity
element of G1 — the only prior state for which the two pairing sides coincide
despite a non-identity new scalar, because G1 has prime order `bnR` (proved in
`bnR_prime`), so scalar multiplication by a fixed nonzero element is
injective. -/
theorem stale_witness_fails (keccak : KeccakFn) (ms : List (List Byte))
    (m mnew : List Byte) (w : G1) (hm : m ∈ ms)
    (hw : membership_witness (add_all keccak new ms) (hash_to_scalar keccak m) = some w)
    (hy : hash_to_scalar keccak mnew ≠ 1)
    (hacc : (add_all keccak new ms).acc ≠ G1identity) :
    verify_membership ((add_member keccak (add_all keccak new ms) mnew).1)
      (hash_to_scalar keccak m) w = false := by
  haveI : Fact (Nat.Prime bnR) := ⟨bnR_prime⟩
  have hmem : (add_all keccak new ms).members = ms.map (hash_to_scalar keccak) := by
    rw [add_all_members]; simp [new]
  have hx : hash_to_scalar keccak m ∈ (add_all keccak new ms).members := by
    rw [hmem]; exact List.mem_map_of_mem _ hm
  have hg1 : (add_all keccak new ms).g1 = 1 := by rw [add_all_g1]; rfl
  have hg2 : (add_all keccak new ms).g2 = 1 := by rw [add_all_g2]; rfl
  have haccprod : (add_all keccak new ms).acc = ((add_all keccak new ms).members).prod := by
    rw [add_all_acc, hmem]; simp [new, G1generator]
  have hwx : w * hash_to_scalar keccak m = (add_all keccak new ms).acc := by
    rw [membership_witness_spec, if_pos hx] at hw
    have hwval : g1smul (add_all keccak new ms).g1
        (((add_all keccak new ms).members.erase (hash_to_scalar keccak m)).prod) = w :=
      Option.some_inj.mp hw
    rw [← hwval, hg1, haccprod]
    have hprod := List.prod_erase hx
    simp only [g1smul, one_mul]
    rw [← hprod]; ring
  rw [add_member_fst]
  simp only [verify_membership, pairing, g1smul, hg2, mul_one]
  rw [decide_eq_false_iff_not]
  intro heq
  rw [hwx] at heq
  have h1 : (add_all keccak new ms).acc * 1 =
      (add_all keccak new ms).acc * hash_to_scalar keccak mnew := by
    rw [mul_one]; exact heq
  have hacc0 : (add_all keccak new ms).acc ≠ 0 := hacc
  exact hy (mul_left_cancel₀ hacc0 h1).symm

/-- Witness for C8: a concrete witness that verified before the extra addition
is rejected afterwards. -/
theorem stale_witness_fails_witness :
    verify_membership ((add_member keccakId (add_all keccakId new [[2]]) [3]).1)
      (hash_to_scalar keccakId [2]) 1 = false :=
  stale_witness_fails keccakId [[2]] [2] [3] 1 (by decide) (by decide) (by decide) (by decide)

end Bn254Accumulator
